import Mathlib

/-!
Verification development for the Oanda_Gold trading bot.

Shallow embedding of the risk manager (src/risk_manager.js), the scan
orchestration and the position-monitoring loop (src/index.js), and the
configuration defaults (src/config.js).  Prices and balances are modelled
as exact rationals; broker calls are modelled by explicit outcome
parameters of type Except Unit α (error = the JS call threw); the side
effects of a tick (broker requests, persistence writes, notifications,
P and L accounting) are recorded in an explicit event trace.
-/

namespace OandaGold

/-- Configuration constants used by the risk manager and the monitor loop
(src/config.js defaults: MIN_POSITION_SIZE 100, MAX_POSITION_SIZE 50000,
MAX_RISK_PER_TRADE 0.015, MAX_DAILY_LOSS 150, MAX_PORTFOLIO_RISK 0.05,
TRAILING_STOP_DISTANCE_PIPS 200, ENABLE_TRAILING_STOP true,
TRADING_SYMBOL "XAU_USD"). -/
structure RMConfig where
  minPositionSize : ℤ
  maxPositionSize : ℤ
  maxRiskPerTrade : ℚ
  maxDailyLoss : ℚ
  maxPortfolioRisk : ℚ
  trailingStopDistancePips : ℚ
  enableTrailingStop : Bool
  tradingSymbol : String
deriving Repr

/-- The defaults from src/config.js. -/
def defaultConfig : RMConfig where
  minPositionSize := 100
  maxPositionSize := 50000
  maxRiskPerTrade := 0.015
  maxDailyLoss := 150
  maxPortfolioRisk := 0.05
  trailingStopDistancePips := 200
  enableTrailingStop := true
  tradingSymbol := "XAU_USD"

/-- Config.pipsToPrice: pips * 0.01 (src/config.js line 230). -/
def pipsToPrice (pips : ℚ) : ℚ := pips * 0.01

/-- One broker-reported open trade, the shape returned by
client.getOpenTrades() and consumed by the risk manager and the monitor
loop: tradeId, instrument, signed units, entry price, unrealized P and L,
and the current broker-side stop loss (stopLoss is absent or 0 when the
trade has no stop; JS truthiness of trade.stopLoss is modelled below). -/
structure OTrade where
  tradeId : String
  instrument : String
  units : ℚ
  price : ℚ
  unrealizedPL : ℚ
  stopLoss : Option ℚ
deriving Repr

/-- RiskManager state (src/risk_manager.js constructor fields).
lastResetDate abstracts the calendar-day string produced by
Date.toDateString(): two instants get equal day values exactly when they
print the same date (UTC in the deployed container). -/
structure RiskState where
  dailyPnL : ℚ
  dailyTrades : ℕ
  winningTrades : ℕ
  losingTrades : ℕ
  lastResetDate : ℕ
  totalPnL : ℚ
  totalTrades : ℕ
  totalWins : ℕ
  totalLosses : ℕ
  initialBalance : ℚ
  currentBalance : ℚ
deriving Repr

/-- RiskManager.resetDailyStats (src/risk_manager.js lines 32-42): zero
the daily counters when today differs from the stored lastResetDate,
otherwise do nothing. -/
def resetDailyStats (s : RiskState) (today : ℕ) : RiskState :=
  if today ≠ s.lastResetDate then
    { s with
      dailyPnL := 0
      dailyTrades := 0
      winningTrades := 0
      losingTrades := 0
      lastResetDate := today }
  else s

/-- RiskManager.syncBalance (src/risk_manager.js lines 47-57): on success
overwrite currentBalance with the fetched NAV and return it; on broker
failure log and return the last known currentBalance unchanged. -/
def syncBalance (s : RiskState) (balRes : Except Unit ℚ) : RiskState × ℚ :=
  match balRes with
  | .ok nav => ({ s with currentBalance := nav }, nav)
  | .error _ => (s, s.currentBalance)

/-- RiskManager.calculatePositionSize (src/risk_manager.js lines 66-85):
riskAmount = currentBalance * riskPercent; priceDistance = |entry - stop|;
zero distance returns the sentinel 0; otherwise floor(riskAmount /
priceDistance) raised to minPositionSize and then capped at
maxPositionSize. -/
def calculatePositionSize (cfg : RMConfig) (currentBalance entryPrice stopLoss riskPercent : ℚ) : ℤ :=
  let riskAmount := currentBalance * riskPercent
  let priceDistance := |entryPrice - stopLoss|
  if priceDistance = 0 then 0
  else
    let positionSize := ⌊riskAmount / priceDistance⌋
    let positionSize := max positionSize cfg.minPositionSize
    let positionSize := min positionSize cfg.maxPositionSize
    positionSize

/-- Risk contribution of one open trade inside calculatePortfolioHeat
(src/risk_manager.js lines 95-101): counted only when trade.stopLoss is
truthy (present and nonzero), as |price - stopLoss| * |units|. -/
def tradeRisk (t : OTrade) : ℚ :=
  match t.stopLoss with
  | some sl => if sl = 0 then 0 else |t.price - sl| * |t.units|
  | none => 0

/-- RiskManager.calculatePortfolioHeat (src/risk_manager.js lines 90-109):
on success, total stop-distance risk over the fetched open trades divided
by currentBalance; the catch block logs and returns 0 when the broker
call throws. -/
def calculatePortfolioHeat (currentBalance : ℚ) (tradesRes : Except Unit (List OTrade)) : ℚ :=
  match tradesRes with
  | .error _ => 0
  | .ok trades =>
    let totalRisk := trades.foldl (fun acc t => acc + tradeRisk t) 0
    totalRisk / currentBalance

/-- Denial reasons returned by canOpenTrade. -/
inductive DenyReason where
  | dailyLossLimit
  | portfolioHeatExceeded
deriving DecidableEq, Repr

/-- RiskManager.canOpenTrade (src/risk_manager.js lines 114-146): first
resetDailyStats, then the daily-loss-limit check, then the portfolio-heat
check against the broker's open trades (tradesRes is the outcome of the
getOpenTrades call made inside calculatePortfolioHeat, which never
throws to this caller).  Returns the possibly-reset state and the denial
reason, none meaning allowed. -/
def canOpenTrade (cfg : RMConfig) (s : RiskState) (today : ℕ)
    (tradesRes : Except Unit (List OTrade))
    (entryPrice stopLoss positionSize : ℚ) : RiskState × Option DenyReason :=
  let s := resetDailyStats s today
  if s.dailyPnL ≤ -cfg.maxDailyLoss then (s, some .dailyLossLimit)
  else
    let currentHeat := calculatePortfolioHeat s.currentBalance tradesRes
    let newTradeRisk := |entryPrice - stopLoss| * positionSize
    let newHeat := (currentHeat * s.currentBalance + newTradeRisk) / s.currentBalance
    if newHeat > cfg.maxPortfolioRisk then (s, some .portfolioHeatExceeded)
    else (s, none)

/-- RiskManager.recordTrade (src/risk_manager.js lines 151-171). -/
def recordTradeState (s : RiskState) (pnl : ℚ) : RiskState :=
  let s := { s with
    dailyPnL := s.dailyPnL + pnl
    dailyTrades := s.dailyTrades + 1
    totalPnL := s.totalPnL + pnl
    totalTrades := s.totalTrades + 1 }
  if pnl > 0 then
    { s with winningTrades := s.winningTrades + 1, totalWins := s.totalWins + 1 }
  else if pnl < 0 then
    { s with losingTrades := s.losingTrades + 1, totalLosses := s.totalLosses + 1 }
  else s

/-- The aggregate produced by getPortfolioSummary (src/risk_manager.js
lines 185-200). -/
structure PortfolioSummary where
  balance : ℚ
  initialBalance : ℚ
  totalPnL : ℚ
  totalPnLPct : ℚ
  dailyPnL : ℚ
  dailyTrades : ℕ
  portfolioHeat : ℚ
  openPositions : ℕ
  unrealizedPL : ℚ
  portfolioValue : ℚ
  winningTrades : ℕ
  losingTrades : ℕ
  totalTrades : ℕ
  winRate : ℚ
deriving Repr

/-- RiskManager.getPortfolioSummary (src/risk_manager.js lines 176-205):
syncBalance (never throws), then getOpenTrades (tradesRes; a throw is
caught and the method returns null), then calculatePortfolioHeat with its
own getOpenTrades call (heatTradesRes; never throws).  Returns the
updated state and the summary, none modelling the null return of the
catch block. -/
def getPortfolioSummary (s : RiskState) (balRes : Except Unit ℚ)
    (tradesRes heatTradesRes : Except Unit (List OTrade)) :
    RiskState × Option PortfolioSummary :=
  let s1 := (syncBalance s balRes).1
  match tradesRes with
  | .error _ => (s1, none)
  | .ok trades =>
    let portfolioHeat := calculatePortfolioHeat s1.currentBalance heatTradesRes
    let unrealizedPL := trades.foldl (fun acc t => acc + t.unrealizedPL) 0
    let winRate : ℚ :=
      if s1.totalTrades > 0 then ((s1.totalWins : ℚ) / (s1.totalTrades : ℚ)) * 100 else 0
    (s1, some {
      balance := s1.currentBalance
      initialBalance := s1.initialBalance
      totalPnL := s1.totalPnL
      totalPnLPct := ((s1.currentBalance - s1.initialBalance) / s1.initialBalance) * 100
      dailyPnL := s1.dailyPnL
      dailyTrades := s1.dailyTrades
      portfolioHeat := portfolioHeat
      openPositions := trades.length
      unrealizedPL := unrealizedPL
      portfolioValue := s1.currentBalance + unrealizedPL
      winningTrades := s1.winningTrades
      losingTrades := s1.losingTrades
      totalTrades := s1.totalTrades
      winRate := winRate })

/-- One tracked position in the bot's activePositions ledger
(src/index.js lines 563-578): the fields the monitor loop reads and
mutates. -/
structure Position where
  tradeId : String
  entryPrice : ℚ
  units : ℚ
  stopLossInit : ℚ
  takeProfit1 : ℚ
  takeProfit2 : ℚ
  tp1Hit : Bool
  bestPrice : ℚ
  currentStopLoss : ℚ
deriving Repr

/-- Observable effects emitted during a monitor tick: broker requests
(closeTrade is the PUT trades/id/close request, modifyStop and
setTakeProfit are the two modifyTrade variants, fetchClosed is the GET
trades/id detail request), persistence writes (savePositions),
notification attempts, ledger removals and recordTrade invocations (the
recordTrade event carries the trade id of the loop iteration that
invoked it). -/
inductive MEvent where
  | closeTrade (tradeId : String) (units : ℤ)
  | modifyStop (tradeId : String) (stopLoss : ℚ)
  | setTakeProfit (tradeId : String) (takeProfit : ℚ)
  | persist
  | notify
  | removeEntry (tradeId : String)
  | fetchClosed (tradeId : String)
  | recordTrade (tradeId : String) (pnl : ℚ)
deriving DecidableEq, Repr

/-- Broker-call outcomes and fresh mid prices consumed by one iteration
of the monitor loop over one open trade.  The TP1 block and the trailing
block each fetch their own quote (src/index.js lines 645 and 731), so
the two prices are separate inputs.  closeRes: error = the close request
threw, ok none = a response without orderFillTransaction (success
false), ok (some pl) = confirmed fill with realized P and L pl.  beRes
and tp2Res are the breakeven-stop and TP2 modifyTrade outcomes, trailRes
the trailing-stop modifyTrade outcome.  hasTelegram tells whether a
notifier is attached. -/
structure MonitorEnv where
  priceTP1 : ℚ
  priceTrail : ℚ
  closeRes : Except Unit (Option ℚ)
  beRes : Except Unit Unit
  tp2Res : Except Unit Unit
  trailRes : Except Unit Unit
  hasTelegram : Bool
deriving Repr

/-- Result of the TP1 block for one trade: updated tracked position,
emitted events, and whether the JS continue was taken (which skips the
trailing block for this trade). -/
structure TickResult where
  pos : Position
  events : List MEvent
  skipped : Bool
deriving Repr

/-- The TP1 block of monitorPositions (src/index.js lines 643-725).
Only runs when tp1Hit is false.  Side-aware TP1 check against the fresh
mid price (price at or above takeProfit1 for long, at or below for
short, long decided by trade.units being positive).  On hit: closeUnits
= floor(|trade.units| * 0.6); nonpositive closeUnits logs and continues
(skipping the trailing block); otherwise the partial-close request is
sent; on confirmed fill the stop is moved to entryPrice, takeProfit2 is
set, tp1Hit is set true, the ledger is persisted, and a notification is
attempted; a throw from any of these broker calls is caught, leaving
tp1Hit false.  The broker-call cascade after the hit (partial close,
breakeven-stop modify, TP2 modify) is factored into tp1CloseFlow. -/
def tp1CloseFlow (tracked : Position) (tid : String) (closeUnits : ℤ) (env : MonitorEnv) :
    TickResult :=
  match env.closeRes with
  | .error _ => ⟨tracked, [.closeTrade tid closeUnits], false⟩
  | .ok none => ⟨tracked, [.closeTrade tid closeUnits], false⟩
  | .ok (some _) =>
    match env.beRes with
    | .error _ =>
      ⟨tracked,
       [.closeTrade tid closeUnits, .modifyStop tid tracked.entryPrice], false⟩
    | .ok _ =>
      match env.tp2Res with
      | .error _ =>
        ⟨tracked,
         [.closeTrade tid closeUnits, .modifyStop tid tracked.entryPrice,
          .setTakeProfit tid tracked.takeProfit2], false⟩
      | .ok _ =>
        ⟨{ tracked with tp1Hit := true },
         [.closeTrade tid closeUnits, .modifyStop tid tracked.entryPrice,
          .setTakeProfit tid tracked.takeProfit2,
          .persist] ++ (if env.hasTelegram then [.notify] else []), false⟩

/-- The guard structure of the TP1 block: tp1Hit check, side-aware TP1
price check, closeUnits validation, then the broker-call cascade. -/
def tp1Step (tracked : Position) (trade : OTrade) (env : MonitorEnv) : TickResult :=
  if tracked.tp1Hit then ⟨tracked, [], false⟩
  else
    let price := env.priceTP1
    let isLong := trade.units > 0
    let hit := if isLong then price ≥ tracked.takeProfit1 else price ≤ tracked.takeProfit1
    if hit then
      let closeUnits : ℤ := ⌊|trade.units| * 0.6⌋
      if closeUnits ≤ 0 then ⟨tracked, [], true⟩
      else tp1CloseFlow tracked trade.tradeId closeUnits env
    else ⟨tracked, [], false⟩

/-- The trailing-stop block of monitorPositions (src/index.js lines
730-789).  Active when trailing is enabled and either tp1Hit is true or
the fresh mid has moved favorably from entry by at least the trail
distance.  bestPrice is updated only on a strictly more favorable fresh
mid; the candidate stop is that price (the new bestPrice) minus the
trail distance for long, plus for short; the broker modifyTrade request
is sent only when the candidate strictly improves on currentStopLoss,
and currentStopLoss is updated (and the ledger persisted) only after the
request succeeds; a throw leaves currentStopLoss unchanged (bestPrice
stays updated, as in the source). -/
def trailStep (cfg : RMConfig) (tracked : Position) (trade : OTrade) (env : MonitorEnv) :
    Position × List MEvent :=
  if cfg.enableTrailingStop then
    let price := env.priceTrail
    let isLong := trade.units > 0
    let trailDistance := pipsToPrice cfg.trailingStopDistancePips
    let profitMove := if isLong then price - tracked.entryPrice else tracked.entryPrice - price
    let shouldTrail := tracked.tp1Hit = true ∨ profitMove ≥ trailDistance
    if shouldTrail then
      let favorable := if isLong then price > tracked.bestPrice else price < tracked.bestPrice
      if favorable then
        let tracked1 := { tracked with bestPrice := price }
        let newStopLoss := if isLong then price - trailDistance else price + trailDistance
        let stopImproved :=
          if isLong then newStopLoss > tracked1.currentStopLoss
          else newStopLoss < tracked1.currentStopLoss
        if stopImproved then
          match env.trailRes with
          | .ok _ =>
            ({ tracked1 with currentStopLoss := newStopLoss },
             [.modifyStop trade.tradeId newStopLoss, .persist])
          | .error _ => (tracked1, [.modifyStop trade.tradeId newStopLoss])
        else (tracked1, [])
      else (tracked, [])
    else (tracked, [])
  else (tracked, [])

/-- One iteration of the per-open-trade monitor loop body (src/index.js
lines 634-790): the TP1 block, then (unless the TP1 block hit the JS
continue) the trailing-stop block. -/
def monitorTrade (cfg : RMConfig) (tracked : Position) (trade : OTrade) (env : MonitorEnv) :
    Position × List MEvent :=
  let r := tp1Step tracked trade env
  if r.skipped then (r.pos, r.events)
  else
    let t := trailStep cfg r.pos trade env
    (t.1, r.events ++ t.2)

/-- Folding monitorTrade over a sequence of monitor ticks, each tick
supplying the broker's view of the trade and that tick's prices and call
outcomes. -/
def runMonitor (cfg : RMConfig) (p : Position) (ticks : List (OTrade × MonitorEnv)) : Position :=
  ticks.foldl (fun q te => (monitorTrade cfg q te.1 te.2).1) p

/-- The closed-trade detail fetched (best effort) after an entry is
removed from the ledger (src/index.js lines 808-816): entry price,
average close price, realized P and L, initial units. -/
structure ClosedInfo where
  entryPrice : ℚ
  averageClosePrice : Option ℚ
  realizedPL : ℚ
  initialUnits : ℚ
deriving Repr

/-- Outcome of the GET trades/id detail request: error = the request
threw; ok none = a response whose trade is missing or whose state is not
CLOSED; ok (some info) = the trade reported CLOSED with detail info. -/
def FetchRes : Type := Except Unit (Option ClosedInfo)

/-- Events of the closed-trade handling for a single stale ledger entry
(src/index.js lines 797-847): delete from the ledger, persist, then the
best-effort detail fetch; only when the fetch succeeds and reports the
trade CLOSED are the notification attempt and the recordTrade invocation
made; a thrown fetch is caught and nothing is rolled back. -/
def processClosedTrade (tradeId : String) (fetch : FetchRes) (hasTelegram : Bool) :
    List MEvent :=
  [.removeEntry tradeId, .persist, .fetchClosed tradeId] ++
  match fetch with
  | .error _ => []
  | .ok none => []
  | .ok (some info) =>
    (if hasTelegram then [MEvent.notify] else []) ++ [.recordTrade tradeId info.realizedPL]

/-- The trade ids that are tracked in the ledger but absent from the
broker's open-trade list (src/index.js lines 793-795): the list of stale
ids computed once before the removal loop runs. -/
def closedTradeIds (ledger : List (String × Position)) (openTrades : List OTrade) :
    List String :=
  (ledger.map (fun kv => kv.1)).filter
    (fun id => ¬ openTrades.any (fun t => t.tradeId = id))

/-- The removal loop over the stale ids (src/index.js lines 797-847):
for each id in order, delete it from the ledger, then emit that id's
closed-trade events. -/
def reconcileLoop (ids : List String) (ledger : List (String × Position))
    (fetch : String → FetchRes) (hasTelegram : Bool) :
    List (String × Position) × List MEvent :=
  match ids with
  | [] => (ledger, [])
  | id :: rest =>
    let evs := processClosedTrade id (fetch id) hasTelegram
    let r := reconcileLoop rest (ledger.filter (fun kv => kv.1 ≠ id)) fetch hasTelegram
    (r.1, evs ++ r.2)

/-- The reconciliation phase of one monitor tick (src/index.js lines
793-847): compute the stale ids against the broker's open trades, then
run the removal loop. -/
def monitorReconcile (ledger : List (String × Position)) (openTrades : List OTrade)
    (fetch : String → FetchRes) (hasTelegram : Bool) :
    List (String × Position) × List MEvent :=
  reconcileLoop (closedTradeIds ledger openTrades) ledger fetch hasTelegram

/-- syncPositionsWithOanda (src/index.js lines 136-154): on a successful
getOpenTrades, drop every ledger entry whose id is not open on the
broker and persist; a thrown fetch is caught and leaves the ledger
untouched. -/
def syncPositionsWithOanda (ledger : List (String × Position))
    (openTradesRes : Except Unit (List OTrade)) :
    List (String × Position) × List MEvent :=
  match openTradesRes with
  | .error _ => (ledger, [])
  | .ok trades =>
    (ledger.filter (fun kv => trades.any (fun t => t.tradeId = kv.1)), [.persist])

/-- Number of recordTrade invocations attributed to a given trade id in
an event trace. -/
def recordCount (id : String) (evs : List MEvent) : ℕ :=
  (evs.filter (fun e =>
    match e with
    | .recordTrade i _ => i = id
    | _ => false)).length

/-- Trade direction of a live signal. -/
inductive Side where
  | long
  | short
deriving DecidableEq, Repr

/-- Entry levels computed by the live strategy for a signal
(src/index.js lines 449-451). -/
structure EntryLevels where
  entryPrice : ℚ
  stopLoss : ℚ
  takeProfit1 : ℚ
  takeProfit2 : ℚ
deriving Repr

/-- Outcome of one scanMarket tick (src/index.js lines 372-515) from the
strategy-evaluation point onward. -/
inductive ScanResult where
  | noSignal
  | scanError
  | abortedExistingPosition
  | abortedSizeZero
  | abortedRisk (r : DenyReason)
  | submitted (units : ℤ)
deriving DecidableEq, Repr

/-- Side effects of the scan orchestration after a live signal: the
entry-level computation, the position-sizing call, the risk check, and
the market-order submission (executeTrade). -/
inductive ScanEvent where
  | computeLevels
  | sizePosition (size : ℤ)
  | riskCheck
  | submitOrder (units : ℤ)
deriving DecidableEq, Repr

/-- The scan orchestration (src/index.js lines 419-480): no live signal
stops with no side effect; otherwise getOpenTrades (a throw aborts the
scan); if any open trade is on the trading instrument the scan aborts
before levels, sizing, risk check or submission; then entry levels and
calculatePositionSize (zero aborts); then canOpenTrade (denial aborts);
then the order is submitted with units signed by the side.  levels is
the value the strategy would produce, consumed only after the
existing-position check, where the source computes it. -/
def scanTick (cfg : RMConfig) (rs : RiskState) (today : ℕ) (signal : Option Side)
    (existingTradesRes : Except Unit (List OTrade)) (levels : EntryLevels)
    (heatTradesRes : Except Unit (List OTrade)) :
    ScanResult × List ScanEvent :=
  match signal with
  | none => (.noSignal, [])
  | some side =>
    match existingTradesRes with
    | .error _ => (.scanError, [])
    | .ok existingTrades =>
      if existingTrades.any (fun t => t.instrument = cfg.tradingSymbol) then
        (.abortedExistingPosition, [])
      else
        let positionSize :=
          calculatePositionSize cfg rs.currentBalance levels.entryPrice levels.stopLoss
            cfg.maxRiskPerTrade
        let evs := [ScanEvent.computeLevels, ScanEvent.sizePosition positionSize]
        if positionSize = 0 then (.abortedSizeZero, evs)
        else
          let units : ℤ := if side = Side.long then positionSize else -positionSize
          let check := canOpenTrade cfg rs today heatTradesRes levels.entryPrice levels.stopLoss
            ((|units| : ℤ) : ℚ)
          match check.2 with
          | some r => (.abortedRisk r, evs ++ [.riskCheck])
          | none => (.submitted units, evs ++ [.riskCheck, .submitOrder units])

/-- One scan tick's inputs, for reasoning about sequences of scans. -/
structure ScanInput where
  rs : RiskState
  today : ℕ
  signal : Option Side
  existingTradesRes : Except Unit (List OTrade)
  levels : EntryLevels
  heatTradesRes : Except Unit (List OTrade)

/-- The events of one scan tick. -/
def scanEvents (cfg : RMConfig) (inp : ScanInput) : List ScanEvent :=
  (scanTick cfg inp.rs inp.today inp.signal inp.existingTradesRes inp.levels
    inp.heatTradesRes).2

/-- For a lower clamp below the upper clamp, clamping up then capping
agrees with capping then clamping up. -/
theorem min_max_clamp_comm (x lo hi : ℤ) (h : lo ≤ hi) :
    min (max x lo) hi = max (min x hi) lo := by
  omega

/-- Claim C7: for every balance, entry price, stop loss with entry
different from stop, and risk percent, calculatePositionSize returns
floor(balance * riskPercent / |entry - stop|) clamped to the configured
size interval; for entry 2050, stop 2030, risk 0.015, balance 10000 the
pre-clamp value is floor(150 / 20) = 7 and the returned value equals
max(min(7, maxSize), minSize). -/
theorem calculatePositionSize_formula (cfg : RMConfig) (bal e s risk : ℚ)
    (hne : e ≠ s) (hms : cfg.minPositionSize ≤ cfg.maxPositionSize) :
    calculatePositionSize cfg bal e s risk
      = max (min ⌊bal * risk / |e - s|⌋ cfg.maxPositionSize) cfg.minPositionSize
    ∧ ⌊(10000 : ℚ) * 0.015 / |2050 - 2030|⌋ = 7
    ∧ calculatePositionSize defaultConfig 10000 2050 2030 0.015
      = max (min 7 defaultConfig.maxPositionSize) defaultConfig.minPositionSize := by
  refine ⟨?_, by norm_num, ?_⟩
  · have hd : |e - s| ≠ 0 := by
      simp only [abs_ne_zero, sub_ne_zero]
      exact hne
    simp only [calculatePositionSize, if_neg hd]
    exact min_max_clamp_comm _ _ _ hms
  · simp only [calculatePositionSize, defaultConfig]
    norm_num

/-- Claim C7 witness at entry 2050, stop 2030, risk 0.015, balance
10000 with the default configuration. -/
theorem calculatePositionSize_formula_witness :
    (2050 : ℚ) ≠ 2030
    ∧ defaultConfig.minPositionSize ≤ defaultConfig.maxPositionSize
    ∧ calculatePositionSize defaultConfig 10000 2050 2030 0.015
        = max (min ⌊(10000 : ℚ) * 0.015 / |2050 - 2030|⌋ defaultConfig.maxPositionSize)
            defaultConfig.minPositionSize :=
  ⟨by norm_num, by decide,
   (calculatePositionSize_formula defaultConfig 10000 2050 2030 0.015 (by norm_num)
     (by decide)).1⟩

/-- Claim C8: with entry price equal to stop loss,
calculatePositionSize returns the sentinel 0 (the division is never
reached), and the scan orchestration aborts the trade attempt when the
returned size is zero: with a live signal, no existing position, and
levels whose entry equals the stop, the scan ends in abortedSizeZero and
no order submission is emitted. -/
theorem zero_distance_guard (cfg : RMConfig) (bal risk e : ℚ) (rs : RiskState)
    (today : ℕ) (side : Side) (trades : List OTrade) (levels : EntryLevels)
    (heatRes : Except Unit (List OTrade))
    (hnopos : trades.any (fun t => t.instrument = cfg.tradingSymbol) = false)
    (hlev : levels.entryPrice = levels.stopLoss) :
    calculatePositionSize cfg bal e e risk = 0
    ∧ scanTick cfg rs today (some side) (Except.ok trades) levels heatRes
        = (ScanResult.abortedSizeZero, [ScanEvent.computeLevels, ScanEvent.sizePosition 0]) := by
  have hzero : ∀ b r : ℚ, calculatePositionSize cfg b levels.entryPrice levels.stopLoss r = 0 := by
    intro b r
    simp [calculatePositionSize, hlev]
  refine ⟨by simp [calculatePositionSize], ?_⟩
  simp only [scanTick, hnopos, Bool.false_eq_true, if_false, hzero]
  simp

/-- Claim C8 witness: entry 2050 equal to stop 2050 with the default
configuration and an empty broker book. -/
theorem zero_distance_guard_witness :
    ([] : List OTrade).any (fun t => t.instrument = defaultConfig.tradingSymbol) = false
    ∧ (⟨2050, 2050, 2080, 2100⟩ : EntryLevels).entryPrice
        = (⟨2050, 2050, 2080, 2100⟩ : EntryLevels).stopLoss
    ∧ calculatePositionSize defaultConfig 10000 2050 2050 0.015 = 0
    ∧ scanTick defaultConfig
        ⟨0, 0, 0, 0, 0, 0, 0, 0, 0, 10000, 10000⟩ 0 (some Side.long)
        (Except.ok []) ⟨2050, 2050, 2080, 2100⟩ (Except.ok [])
        = (ScanResult.abortedSizeZero, [ScanEvent.computeLevels, ScanEvent.sizePosition 0]) := by
  have h := zero_distance_guard defaultConfig 10000 0.015 2050
    ⟨0, 0, 0, 0, 0, 0, 0, 0, 0, 10000, 10000⟩ 0 Side.long []
    ⟨2050, 2050, 2080, 2100⟩ (Except.ok []) rfl rfl
  exact ⟨rfl, rfl, h.1, h.2⟩

/-- Claim C10: when entry differs from stop the returned size is at
least the configured positive minimum, so the zero sentinel occurs
exactly at zero stop distance; and when the risk-derived floor falls
below the minimum the size is raised to the minimum, so the monetary
risk taken can exceed balance * riskPercent — concretely, for balance
10000, risk 0.015, entry 2050, stop 1850 the risk-derived floor is 0,
the returned size is the minimum 100, and the risk taken 200 * 100
exceeds 150. -/
theorem sizing_minimum_floor (cfg : RMConfig) (bal e s risk : ℚ)
    (hpos : 0 < cfg.minPositionSize) (hms : cfg.minPositionSize ≤ cfg.maxPositionSize) :
    (calculatePositionSize cfg bal e s risk = 0 ↔ e = s)
    ∧ (e ≠ s → cfg.minPositionSize ≤ calculatePositionSize cfg bal e s risk)
    ∧ ⌊(10000 : ℚ) * 0.015 / |2050 - 1850|⌋ = 0
    ∧ calculatePositionSize defaultConfig 10000 2050 1850 0.015
        = defaultConfig.minPositionSize
    ∧ |(2050 : ℚ) - 1850|
        * ((calculatePositionSize defaultConfig 10000 2050 1850 0.015 : ℤ) : ℚ)
        > 10000 * 0.015 := by
  have hleast : ∀ e s : ℚ, e ≠ s → cfg.minPositionSize ≤ calculatePositionSize cfg bal e s risk := by
    intro e s hne
    have hd : |e - s| ≠ 0 := by
      simp only [abs_ne_zero, sub_ne_zero]
      exact hne
    simp only [calculatePositionSize, if_neg hd]
    omega
  refine ⟨⟨fun hz => ?_, fun hz => ?_⟩, hleast e s, by norm_num, ?_, ?_⟩
  · by_contra hne
    have := hleast e s hne
    omega
  · subst hz
    simp [calculatePositionSize]
  · simp only [calculatePositionSize, defaultConfig]
    norm_num
  · simp only [calculatePositionSize, defaultConfig]
    norm_num

/-- Claim C10 witness with the default configuration at entry 2050,
stop 1850, balance 10000, risk 0.015. -/
theorem sizing_minimum_floor_witness :
    (0 : ℤ) < defaultConfig.minPositionSize
    ∧ defaultConfig.minPositionSize ≤ defaultConfig.maxPositionSize
    ∧ (calculatePositionSize defaultConfig 10000 2050 1850 0.015 = 0 ↔ (2050 : ℚ) = 1850)
    ∧ calculatePositionSize defaultConfig 10000 2050 1850 0.015
        = defaultConfig.minPositionSize :=
  ⟨by decide, by decide,
   (sizing_minimum_floor defaultConfig 10000 2050 1850 0.015 (by decide) (by decide)).1,
   (sizing_minimum_floor defaultConfig 10000 2050 1850 0.015 (by decide) (by decide)).2.2.2.1⟩

/-- Claim C9 counterexample: calculatePortfolioHeat does not surface a
broker failure — the catch block substitutes the default 0, making a
failed getOpenTrades call indistinguishable from a successful call that
found an empty book. -/
theorem portfolioHeat_failure_counterexample :
    calculatePortfolioHeat 10000 (Except.error ())
      = calculatePortfolioHeat 10000 (Except.ok ([] : List OTrade))
    ∧ calculatePortfolioHeat 10000 (Except.error ()) = 0 := by
  constructor
  · simp [calculatePortfolioHeat]
  · rfl

/-- Claim C9 as amended: syncBalance retains the last known balance on
failure as specified, but calculatePortfolioHeat substitutes the default
0 on broker failure (so canOpenTrade treats a failed trade fetch exactly
like an empty book) and getPortfolioSummary substitutes null rather than
rethrowing. -/
theorem riskManager_failure_semantics (s : RiskState) (bal : ℚ)
    (balRes : Except Unit ℚ) (heatRes : Except Unit (List OTrade))
    (cfg : RMConfig) (today : ℕ) (e sl sz : ℚ) :
    syncBalance s (Except.error ()) = (s, s.currentBalance)
    ∧ calculatePortfolioHeat bal (Except.error ()) = 0
    ∧ getPortfolioSummary s balRes (Except.error ()) heatRes
        = ((syncBalance s balRes).1, none)
    ∧ (canOpenTrade cfg s today (Except.error ()) e sl sz).2
        = (canOpenTrade cfg s today (Except.ok []) e sl sz).2 := by
  refine ⟨rfl, rfl, rfl, ?_⟩
  have hheat : ∀ b : ℚ, calculatePortfolioHeat b (Except.error ())
      = calculatePortfolioHeat b (Except.ok []) := by
    intro b
    simp [calculatePortfolioHeat]
  simp only [canOpenTrade, hheat]

/-- Claim C6: the daily counters are reset by comparing lastResetDate
with the current calendar day on every risk check: resetDailyStats is a
no-op on the same day (idempotent), zeroes dailyPnL exactly when the day
has advanced, any number of same-day checks leave the state untouched,
and canOpenTrade applies exactly this comparison (its returned state is
resetDailyStats of its input). -/
theorem daily_reset_boundary (cfg : RMConfig) (s : RiskState) (D : ℕ)
    (h : s.lastResetDate = D) (tradesRes : Except Unit (List OTrade)) (e sl sz : ℚ) :
    resetDailyStats s D = s
    ∧ (∀ D', D' ≠ D →
        (resetDailyStats s D').dailyPnL = 0
        ∧ (resetDailyStats s D').dailyTrades = 0
        ∧ (resetDailyStats s D').lastResetDate = D'
        ∧ (resetDailyStats s D').totalPnL = s.totalPnL)
    ∧ (∀ D', resetDailyStats (resetDailyStats s D') D' = resetDailyStats s D')
    ∧ (∀ l : List ℕ, (∀ d ∈ l, d = D) → l.foldl resetDailyStats s = s)
    ∧ (canOpenTrade cfg s D tradesRes e sl sz).1 = s
    ∧ (∀ D', (canOpenTrade cfg s D' tradesRes e sl sz).1 = resetDailyStats s D') := by
  have hres : ∀ D', (canOpenTrade cfg s D' tradesRes e sl sz).1 = resetDailyStats s D' := by
    intro D'
    simp only [canOpenTrade]
    split
    · rfl
    · split
      · rfl
      · rfl
  have hnoop : resetDailyStats s D = s := by
    simp [resetDailyStats, h]
  have hidem : ∀ D', resetDailyStats (resetDailyStats s D') D' = resetDailyStats s D' := by
    intro D'
    by_cases hD : D' = s.lastResetDate
    · simp [resetDailyStats, hD]
    · simp [resetDailyStats, hD]
  refine ⟨hnoop, ?_, hidem, ?_, ?_, hres⟩
  · intro D' hD'
    have hne : D' ≠ s.lastResetDate := by rw [h]; exact hD'
    simp [resetDailyStats, hne]
  · intro l hl
    induction l with
    | nil => rfl
    | cons d rest ih =>
      have hd : d = D := hl d (by simp)
      have hrest : ∀ d ∈ rest, d = D := fun x hx => hl x (by simp [hx])
      simp only [List.foldl_cons, hd, hnoop]
      exact ih hrest
  · rw [hres D, hnoop]

/-- Claim C6 witness: a state last reset on day 5 with accumulated
daily P and L 40, checked again on day 5. -/
theorem daily_reset_boundary_witness :
    (⟨40, 2, 1, 1, 5, 40, 2, 1, 1, 10000, 10040⟩ : RiskState).lastResetDate = 5
    ∧ resetDailyStats ⟨40, 2, 1, 1, 5, 40, 2, 1, 1, 10000, 10040⟩ 5
        = ⟨40, 2, 1, 1, 5, 40, 2, 1, 1, 10000, 10040⟩
    ∧ (resetDailyStats ⟨40, 2, 1, 1, 5, 40, 2, 1, 1, 10000, 10040⟩ 6).dailyPnL = 0 :=
  ⟨rfl,
   (daily_reset_boundary defaultConfig ⟨40, 2, 1, 1, 5, 40, 2, 1, 1, 10000, 10040⟩ 5 rfl
     (Except.ok []) 2050 2030 100).1,
   ((daily_reset_boundary defaultConfig ⟨40, 2, 1, 1, 5, 40, 2, 1, 1, 10000, 10040⟩ 5 rfl
     (Except.ok []) 2050 2030 100).2.1 6 (by decide)).1⟩

/-- The TP1 block never touches bestPrice or currentStopLoss: its only
state change is setting tp1Hit. -/
theorem tp1CloseFlow_pos (p : Position) (tid : String) (cu : ℤ) (env : MonitorEnv) :
    (tp1CloseFlow p tid cu env).pos.bestPrice = p.bestPrice
    ∧ (tp1CloseFlow p tid cu env).pos.currentStopLoss = p.currentStopLoss
    ∧ (tp1CloseFlow p tid cu env).pos.entryPrice = p.entryPrice := by
  unfold tp1CloseFlow
  rcases env.closeRes with u | _ | pl
  · simp
  · simp
  · rcases env.beRes with v | v
    · simp
    · rcases env.tp2Res with w | w
      · simp
      · simp

theorem tp1Step_preserves (p : Position) (t : OTrade) (env : MonitorEnv) :
    (tp1Step p t env).pos.bestPrice = p.bestPrice
    ∧ (tp1Step p t env).pos.currentStopLoss = p.currentStopLoss
    ∧ (tp1Step p t env).pos.entryPrice = p.entryPrice := by
  unfold tp1Step
  split
  · simp
  · dsimp only
    split_ifs <;> first
      | exact tp1CloseFlow_pos _ _ _ env
      | simp

/-- Exhaustive case analysis of the trailing block on a long trade:
either nothing happens; or only bestPrice ratchets up to the fresh mid;
or additionally the candidate stop strictly improves and the broker
request is sent, with currentStopLoss updated exactly when the request
succeeded. -/
theorem trailStep_spec (cfg : RMConfig) (p : Position) (t : OTrade) (env : MonitorEnv)
    (hlong : t.units > 0) :
    trailStep cfg p t env = (p, [])
    ∨ (env.priceTrail > p.bestPrice
        ∧ trailStep cfg p t env = ({ p with bestPrice := env.priceTrail }, []))
    ∨ (env.priceTrail > p.bestPrice
        ∧ env.priceTrail - pipsToPrice cfg.trailingStopDistancePips > p.currentStopLoss
        ∧ ((env.trailRes = Except.ok ()
              ∧ trailStep cfg p t env
                = ({ p with
                      bestPrice := env.priceTrail
                      currentStopLoss :=
                        env.priceTrail - pipsToPrice cfg.trailingStopDistancePips },
                   [.modifyStop t.tradeId
                      (env.priceTrail - pipsToPrice cfg.trailingStopDistancePips),
                    .persist]))
            ∨ (env.trailRes = Except.error ()
                ∧ trailStep cfg p t env
                  = ({ p with bestPrice := env.priceTrail },
                     [.modifyStop t.tradeId
                        (env.priceTrail - pipsToPrice cfg.trailingStopDistancePips)])))) := by
  unfold trailStep
  split
  · dsimp only
    simp only [if_pos hlong]
    split
    · split
      · rename_i hfav
        split
        · rename_i himp
          rcases henv : env.trailRes with u | u
          · exact Or.inr (Or.inr ⟨hfav, himp, Or.inr ⟨rfl, rfl⟩⟩)
          · exact Or.inr (Or.inr ⟨hfav, himp, Or.inl ⟨rfl, rfl⟩⟩)
        · exact Or.inr (Or.inl ⟨hfav, rfl⟩)
      · exact Or.inl rfl
    · exact Or.inl rfl
  · exact Or.inl rfl

/-- The trailing block with no strictly favorable fresh mid leaves the
tracked position unchanged (long side). -/
theorem trailStep_adverse (cfg : RMConfig) (p : Position) (t : OTrade) (env : MonitorEnv)
    (hlong : t.units > 0) (hadv : ¬ env.priceTrail > p.bestPrice) :
    (trailStep cfg p t env).1 = p := by
  rcases trailStep_spec cfg p t env hlong with h | ⟨hfav, h⟩ | ⟨hfav, _, ⟨_, h⟩ | ⟨_, h⟩⟩
  · rw [h]
  · exact absurd hfav hadv
  · exact absurd hfav hadv
  · exact absurd hfav hadv

/-- In every branch of the trailing block, bestPrice is either kept or
set to the fresh mid, and in the latter case the fresh mid was strictly
above the old bestPrice (long side). -/
theorem trailStep_bestPrice (cfg : RMConfig) (p : Position) (t : OTrade) (env : MonitorEnv)
    (hlong : t.units > 0)
    (hchg : (trailStep cfg p t env).1.bestPrice ≠ p.bestPrice) :
    env.priceTrail > p.bestPrice
    ∧ (trailStep cfg p t env).1.bestPrice = env.priceTrail := by
  rcases trailStep_spec cfg p t env hlong with h | ⟨hfav, h⟩ | ⟨hfav, _, ⟨_, h⟩ | ⟨_, h⟩⟩
  · rw [h] at hchg
    exact absurd rfl hchg
  · exact ⟨hfav, by rw [h]⟩
  · exact ⟨hfav, by rw [h]⟩
  · exact ⟨hfav, by rw [h]⟩

/-- If the trailing block changes currentStopLoss (long side), the
broker modification succeeded, the new stop is the new bestPrice minus
the trail distance, and it strictly exceeds the old stop. -/
theorem trailStep_stop_change (cfg : RMConfig) (p : Position) (t : OTrade) (env : MonitorEnv)
    (hlong : t.units > 0)
    (hchg : (trailStep cfg p t env).1.currentStopLoss ≠ p.currentStopLoss) :
    env.trailRes = Except.ok ()
    ∧ (trailStep cfg p t env).1.currentStopLoss
        = (trailStep cfg p t env).1.bestPrice - pipsToPrice cfg.trailingStopDistancePips
    ∧ (trailStep cfg p t env).1.currentStopLoss > p.currentStopLoss := by
  rcases trailStep_spec cfg p t env hlong with h | ⟨hfav, h⟩ | ⟨hfav, himp, ⟨hres, h⟩ | ⟨hres, h⟩⟩
  · rw [h] at hchg
    exact absurd rfl hchg
  · rw [h] at hchg
    exact absurd rfl hchg
  · rw [h]
    exact ⟨hres, rfl, himp⟩
  · rw [h] at hchg
    exact absurd rfl hchg

/-- The trailing block never lowers currentStopLoss on a long trade. -/
theorem trailStep_mono (cfg : RMConfig) (p : Position) (t : OTrade) (env : MonitorEnv)
    (hlong : t.units > 0) :
    p.currentStopLoss ≤ (trailStep cfg p t env).1.currentStopLoss := by
  by_cases hchg : (trailStep cfg p t env).1.currentStopLoss = p.currentStopLoss
  · rw [hchg]
  · exact le_of_lt (trailStep_stop_change cfg p t env hlong hchg).2.2

/-- One whole monitor iteration never lowers currentStopLoss on a long
trade. -/
theorem monitorTrade_mono (cfg : RMConfig) (p : Position) (t : OTrade) (env : MonitorEnv)
    (hlong : t.units > 0) :
    p.currentStopLoss ≤ (monitorTrade cfg p t env).1.currentStopLoss := by
  unfold monitorTrade
  dsimp only
  split
  · rw [(tp1Step_preserves p t env).2.1]
  · calc p.currentStopLoss = (tp1Step p t env).pos.currentStopLoss :=
          ((tp1Step_preserves p t env).2.1).symm
      _ ≤ _ := trailStep_mono cfg (tp1Step p t env).pos t env hlong

/-- Over any sequence of monitor ticks on a long trade, currentStopLoss
never decreases. -/
theorem runMonitor_mono (cfg : RMConfig) (ticks : List (OTrade × MonitorEnv)) :
    ∀ p : Position, (∀ x ∈ ticks, x.1.units > 0) →
      p.currentStopLoss ≤ (runMonitor cfg p ticks).currentStopLoss := by
  induction ticks with
  | nil =>
    intro p _
    simp [runMonitor]
  | cons te rest ih =>
    intro p hall
    have h1 : te.1.units > 0 := hall te (by simp)
    have hrest : ∀ x ∈ rest, x.1.units > 0 := fun x hx => hall x (by simp [hx])
    calc p.currentStopLoss
        ≤ (monitorTrade cfg p te.1 te.2).1.currentStopLoss :=
          monitorTrade_mono cfg p te.1 te.2 h1
      _ ≤ _ := by simpa [runMonitor] using ih (monitorTrade cfg p te.1 te.2).1 hrest

/-- Claim C1: trailing-stop monotonicity for a long position.  An
adverse fresh mid (not strictly above the tracked bestPrice) changes
neither bestPrice nor currentStopLoss; bestPrice changes only to a
strictly more favorable fresh mid; currentStopLoss changes only when the
broker modification succeeded, to the new bestPrice minus the trail
distance, and only strictly upward; hence over one tick and over any
sequence of ticks on a long trade, currentStopLoss never decreases. -/
theorem trailing_stop_monotonic (cfg : RMConfig) (p : Position) (t : OTrade)
    (env : MonitorEnv) (hlong : t.units > 0) :
    (¬ env.priceTrail > p.bestPrice →
        (monitorTrade cfg p t env).1.bestPrice = p.bestPrice
        ∧ (monitorTrade cfg p t env).1.currentStopLoss = p.currentStopLoss)
    ∧ ((monitorTrade cfg p t env).1.bestPrice ≠ p.bestPrice →
        env.priceTrail > p.bestPrice
        ∧ (monitorTrade cfg p t env).1.bestPrice = env.priceTrail)
    ∧ ((monitorTrade cfg p t env).1.currentStopLoss ≠ p.currentStopLoss →
        env.trailRes = Except.ok ()
        ∧ (monitorTrade cfg p t env).1.currentStopLoss
            = (monitorTrade cfg p t env).1.bestPrice
              - pipsToPrice cfg.trailingStopDistancePips
        ∧ p.currentStopLoss < (monitorTrade cfg p t env).1.currentStopLoss)
    ∧ p.currentStopLoss ≤ (monitorTrade cfg p t env).1.currentStopLoss
    ∧ (∀ ticks : List (OTrade × MonitorEnv), (∀ x ∈ ticks, x.1.units > 0) →
        p.currentStopLoss ≤ (runMonitor cfg p ticks).currentStopLoss) := by
  have hpres := tp1Step_preserves p t env
  have hmt : ∀ pr : Position → ℚ,
      (monitorTrade cfg p t env).1 = (tp1Step p t env).pos
      ∨ (monitorTrade cfg p t env).1 = (trailStep cfg (tp1Step p t env).pos t env).1 := by
    intro pr
    unfold monitorTrade
    dsimp only
    split
    · exact Or.inl rfl
    · exact Or.inr rfl
  refine ⟨?_, ?_, ?_, monitorTrade_mono cfg p t env hlong, ?_⟩
  · intro hadv
    have hadv2 : ¬ env.priceTrail > (tp1Step p t env).pos.bestPrice := by
      rw [hpres.1]
      exact hadv
    rcases hmt Position.bestPrice with hcase | hcase <;> rw [hcase]
    · exact ⟨hpres.1, hpres.2.1⟩
    · rw [trailStep_adverse cfg (tp1Step p t env).pos t env hlong hadv2]
      exact ⟨hpres.1, hpres.2.1⟩
  · intro hchg
    rcases hmt Position.bestPrice with hcase | hcase
    · rw [hcase] at hchg
      exact absurd hpres.1 hchg
    · rw [hcase] at hchg ⊢
      have hchg2 : (trailStep cfg (tp1Step p t env).pos t env).1.bestPrice
          ≠ (tp1Step p t env).pos.bestPrice := by
        rw [hpres.1]
        exact hchg
      have := trailStep_bestPrice cfg (tp1Step p t env).pos t env hlong hchg2
      rw [hpres.1] at this
      exact this
  · intro hchg
    rcases hmt Position.currentStopLoss with hcase | hcase
    · rw [hcase] at hchg
      exact absurd hpres.2.1 hchg
    · rw [hcase] at hchg ⊢
      have hchg2 : (trailStep cfg (tp1Step p t env).pos t env).1.currentStopLoss
          ≠ (tp1Step p t env).pos.currentStopLoss := by
        rw [hpres.2.1]
        exact hchg
      have := trailStep_stop_change cfg (tp1Step p t env).pos t env hlong hchg2
      rw [hpres.2.1] at this
      exact this
  · exact fun ticks h => runMonitor_mono cfg ticks p h

/-- Claim C1 witness: a long tracked position at entry 2050 with stop
2030, monitored at a fresh mid of 2060 with all broker calls
succeeding. -/
theorem trailing_stop_monotonic_witness :
    (⟨"T1", "XAU_USD", 159, 2060, 10, some 2030⟩ : OTrade).units > 0
    ∧ (⟨"T1", 2050, 159, 2030, 2080, 2100, false, 2050, 2030⟩ : Position).currentStopLoss
        ≤ (monitorTrade defaultConfig
            ⟨"T1", 2050, 159, 2030, 2080, 2100, false, 2050, 2030⟩
            ⟨"T1", "XAU_USD", 159, 2060, 10, some 2030⟩
            ⟨2060, 2060, Except.ok none, Except.ok (), Except.ok (), Except.ok (),
             true⟩).1.currentStopLoss :=
  ⟨by norm_num,
   (trailing_stop_monotonic defaultConfig
     ⟨"T1", 2050, 159, 2030, 2080, 2100, false, 2050, 2030⟩
     ⟨"T1", "XAU_USD", 159, 2060, 10, some 2030⟩
     ⟨2060, 2060, Except.ok none, Except.ok (), Except.ok (), Except.ok (), true⟩
     (by norm_num)).2.2.2.1⟩

/-- Claim C2: TP1 partial-close exactness.  With tp1Hit false, a long
trade of 159 units, a fresh mid at or above takeProfit1, a confirmed
partial-close fill, and both follow-up modifications succeeding, the
requested close is exactly floor(159 * 0.6) = 95 units (leaving
159 - 95 = 64), the stop is moved to entryPrice, takeProfit2 is set,
tp1Hit becomes true, the ledger is persisted and a notification is
sent; below takeProfit1 a long trade triggers nothing, and a short trade
triggers nothing above takeProfit1 (side-aware comparison). -/
theorem tp1_partial_close_exact (p : Position) (t : OTrade) (env : MonitorEnv) (pl : ℚ)
    (h0 : p.tp1Hit = false) (hu : t.units = 159)
    (hhit : env.priceTP1 ≥ p.takeProfit1)
    (hc : env.closeRes = Except.ok (some pl))
    (hbe : env.beRes = Except.ok ()) (htp2 : env.tp2Res = Except.ok ())
    (htg : env.hasTelegram = true) :
    tp1Step p t env
      = ⟨{ p with tp1Hit := true },
         [.closeTrade t.tradeId 95, .modifyStop t.tradeId p.entryPrice,
          .setTakeProfit t.tradeId p.takeProfit2, .persist, .notify], false⟩
    ∧ |t.units| - ((95 : ℤ) : ℚ) = 64
    ∧ (∀ env2 : MonitorEnv, ¬ env2.priceTP1 ≥ p.takeProfit1 →
        tp1Step p t env2 = ⟨p, [], false⟩)
    ∧ (∀ (t2 : OTrade) (env2 : MonitorEnv), ¬ t2.units > 0 →
        ¬ env2.priceTP1 ≤ p.takeProfit1 → tp1Step p t2 env2 = ⟨p, [], false⟩) := by
  have hlong : t.units > 0 := by
    rw [hu]
    norm_num
  have hcu : (⌊|t.units| * 0.6⌋ : ℤ) = 95 := by
    rw [hu]
    norm_num
  refine ⟨?_, by rw [hu]; norm_num, ?_, ?_⟩
  · unfold tp1Step
    rw [h0]
    simp only [Bool.false_eq_true, if_false, if_pos hlong, if_pos hhit, hcu,
      if_neg (show ¬ (95 : ℤ) ≤ 0 by norm_num)]
    unfold tp1CloseFlow
    rw [hc, hbe, htp2, htg]
    simp
  · intro env2 hmiss
    unfold tp1Step
    rw [h0]
    simp only [Bool.false_eq_true, if_false, if_pos hlong, if_neg hmiss]
  · intro t2 env2 hshort hmiss
    unfold tp1Step
    rw [h0]
    simp only [Bool.false_eq_true, if_false, if_neg hshort, if_neg hmiss]

/-- Claim C2 witness at units 159, takeProfit1 2080, fresh mid 2080. -/
theorem tp1_partial_close_exact_witness :
    (⟨"T2", 2050, 159, 2030, 2080, 2100, false, 2050, 2030⟩ : Position).tp1Hit = false
    ∧ (⟨"T2", "XAU_USD", 159, 2080, 30, some 2030⟩ : OTrade).units = 159
    ∧ tp1Step ⟨"T2", 2050, 159, 2030, 2080, 2100, false, 2050, 2030⟩
        ⟨"T2", "XAU_USD", 159, 2080, 30, some 2030⟩
        ⟨2080, 2080, Except.ok (some 120), Except.ok (), Except.ok (), Except.ok (), true⟩
      = ⟨{ (⟨"T2", 2050, 159, 2030, 2080, 2100, false, 2050, 2030⟩ : Position) with
            tp1Hit := true },
         [.closeTrade "T2" 95, .modifyStop "T2" 2050,
          .setTakeProfit "T2" 2100, .persist, .notify], false⟩ :=
  ⟨rfl, rfl,
   (tp1_partial_close_exact ⟨"T2", 2050, 159, 2030, 2080, 2100, false, 2050, 2030⟩
     ⟨"T2", "XAU_USD", 159, 2080, 30, some 2030⟩
     ⟨2080, 2080, Except.ok (some 120), Except.ok (), Except.ok (), Except.ok (), true⟩
     120 rfl rfl (by norm_num) rfl rfl rfl rfl).1⟩

/-- Concrete position for the TP1 partial-failure scenario: long 159
units, entry 2050, takeProfit1 2080, takeProfit2 2100, stop 2030. -/
def c3Pos : Position := ⟨"T7", 2050, 159, 2030, 2080, 2100, false, 2050, 2030⟩

/-- Broker view of the trade at the first failing tick. -/
def c3Trade : OTrade := ⟨"T7", "XAU_USD", 159, 2050, 0, some 2030⟩

/-- First tick: mid 2080 (TP1 reached), the partial close fills with
realized P and L 120, but the follow-up breakeven stop modification
throws. -/
def c3Env1 : MonitorEnv :=
  ⟨2080, 2080, Except.ok (some 120), Except.error (), Except.ok (), Except.ok (), true⟩

/-- Broker view of the remainder (64 units) at the next tick. -/
def c3Trade2 : OTrade := ⟨"T7", "XAU_USD", 64, 2050, 0, some 2030⟩

/-- Second tick: mid still 2080; the close request thrown to keep the
emitted trace minimal. -/
def c3Env2 : MonitorEnv :=
  ⟨2080, 2080, Except.error (), Except.ok (), Except.ok (), Except.ok (), true⟩

/-- A tracked position whose tp1Hit flag is recorded true while the
broker-side stop still sits at 2030, away from the 2050 entry. -/
def c3PosHit : Position := ⟨"T7", 2050, 159, 2030, 2080, 2100, true, 2050, 2050⟩

/-- Broker view for that position with its stop still at 2030. -/
def c3TradeStale : OTrade := ⟨"T7", "XAU_USD", 64, 2040, -5, some 2030⟩

/-- An adverse tick: mid 2040, below the tracked bestPrice. -/
def c3Env3 : MonitorEnv :=
  ⟨2040, 2040, Except.ok none, Except.ok (), Except.ok (), Except.ok (), true⟩

/-- Claim C3: the recovery path the claim describes does not exist in
the code.  When the partial close fills but the breakeven stop
modification throws, tp1Hit stays false (first two conjuncts); on the
next tick the entire TP1 block re-runs and requests a second partial
close of floor(64 * 0.6) = 38 units (third conjunct); and in a state
with tp1Hit true and the broker-reported stop differing from entryPrice,
a monitor tick with an adverse price emits no broker request at all — in
particular no breakeven re-attempt keyed on comparing the broker stop
with entryPrice (last conjuncts). -/
theorem tp1_partial_failure_divergence :
    (tp1Step c3Pos c3Trade c3Env1).pos.tp1Hit = false
    ∧ (tp1Step c3Pos c3Trade c3Env1).events
        = [MEvent.closeTrade "T7" 95, MEvent.modifyStop "T7" 2050]
    ∧ (monitorTrade defaultConfig (monitorTrade defaultConfig c3Pos c3Trade c3Env1).1
        c3Trade2 c3Env2).2.head? = some (MEvent.closeTrade "T7" 38)
    ∧ c3TradeStale.stopLoss ≠ some c3PosHit.entryPrice
    ∧ c3PosHit.tp1Hit = true
    ∧ (monitorTrade defaultConfig c3PosHit c3TradeStale c3Env3).2 = [] := by
  have h1 : tp1Step c3Pos c3Trade c3Env1
      = ⟨c3Pos, [MEvent.closeTrade "T7" 95, MEvent.modifyStop "T7" 2050], false⟩ := by
    unfold tp1Step c3Pos c3Trade c3Env1 tp1CloseFlow
    norm_num
  have htrail1 : trailStep defaultConfig c3Pos c3Trade c3Env1
      = ({ c3Pos with bestPrice := 2080, currentStopLoss := 2078 },
         [MEvent.modifyStop "T7" 2078, MEvent.persist]) := by
    unfold trailStep c3Pos c3Trade c3Env1 defaultConfig pipsToPrice
    norm_num
  have hm1 : (monitorTrade defaultConfig c3Pos c3Trade c3Env1).1
      = { c3Pos with bestPrice := 2080, currentStopLoss := 2078 } := by
    unfold monitorTrade
    rw [h1]
    dsimp only
    rw [htrail1]
    simp
  have h2 : (tp1Step { c3Pos with bestPrice := 2080, currentStopLoss := 2078 }
      c3Trade2 c3Env2)
      = ⟨{ c3Pos with bestPrice := 2080, currentStopLoss := 2078 },
         [MEvent.closeTrade "T7" 38], false⟩ := by
    unfold tp1Step c3Pos c3Trade2 c3Env2 tp1CloseFlow
    norm_num
  have h3 : (monitorTrade defaultConfig c3PosHit c3TradeStale c3Env3).2 = [] := by
    have ha : tp1Step c3PosHit c3TradeStale c3Env3 = ⟨c3PosHit, [], false⟩ := by
      unfold tp1Step c3PosHit
      norm_num
    have hb : trailStep defaultConfig c3PosHit c3TradeStale c3Env3 = (c3PosHit, []) := by
      unfold trailStep c3PosHit c3TradeStale c3Env3 defaultConfig pipsToPrice
      norm_num
    unfold monitorTrade
    rw [ha]
    dsimp only
    rw [hb]
    simp
  refine ⟨by rw [h1]; rfl, by rw [h1], ?_, by decide, rfl, h3⟩
  rw [hm1]
  unfold monitorTrade
  rw [h2]
  dsimp only
  have hc2 : trailStep defaultConfig { c3Pos with bestPrice := 2080, currentStopLoss := 2078 }
      c3Trade2 c3Env2
      = ({ c3Pos with bestPrice := 2080, currentStopLoss := 2078 }, []) := by
    unfold trailStep c3Pos c3Trade2 c3Env2 defaultConfig pipsToPrice
    norm_num
  rw [hc2]
  simp

/-- Claim C4: with a live signal and a broker open-trade list already
containing a trade on the trading instrument, the scan aborts before the
entry levels, sizing, risk check, or order submission are ever reached
(no scan event is emitted); consequently, over any sequence of scan
ticks during each of which the broker reports an open trade on the
instrument, no order is ever submitted. -/
theorem at_most_one_position (cfg : RMConfig) (rs : RiskState) (today : ℕ) (side : Side)
    (trades : List OTrade) (levels : EntryLevels) (heatRes : Except Unit (List OTrade))
    (hpos : trades.any (fun t => t.instrument = cfg.tradingSymbol) = true) :
    scanTick cfg rs today (some side) (Except.ok trades) levels heatRes
      = (ScanResult.abortedExistingPosition, [])
    ∧ ∀ inputs : List ScanInput,
        (∀ inp ∈ inputs, ∃ l, inp.existingTradesRes = Except.ok l
            ∧ l.any (fun t => t.instrument = cfg.tradingSymbol) = true) →
        inputs.foldr (fun i a => scanEvents cfg i ++ a) [] = ([] : List ScanEvent) := by
  have habort : ∀ (rs2 : RiskState) (today2 : ℕ) (side2 : Side) (l : List OTrade)
      (lev2 : EntryLevels) (hr2 : Except Unit (List OTrade)),
      l.any (fun t => t.instrument = cfg.tradingSymbol) = true →
      scanTick cfg rs2 today2 (some side2) (Except.ok l) lev2 hr2
        = (ScanResult.abortedExistingPosition, []) := by
    intro rs2 today2 side2 l lev2 hr2 hany
    simp only [scanTick, hany, if_true]
  refine ⟨habort rs today side trades levels heatRes hpos, ?_⟩
  intro inputs hall
  induction inputs with
  | nil => rfl
  | cons inp rest ih =>
    rcases hall inp (by simp) with ⟨l, hres, hany⟩
    have hone : scanEvents cfg inp = [] := by
      unfold scanEvents
      rcases hsig : inp.signal with _ | side2
      · simp [scanTick]
      · rw [hres, habort inp.rs inp.today side2 l inp.levels inp.heatTradesRes hany]
    have hrest := ih (fun x hx => hall x (by simp [hx]))
    simp only [List.foldr_cons, hone, List.nil_append]
    exact hrest

/-- Claim C4 witness: one broker open trade on XAU_USD blocks the scan;
a two-tick sequence in that situation produces no event at all. -/
theorem at_most_one_position_witness :
    ([⟨"T9", "XAU_USD", 100, 2050, 0, some 2030⟩] : List OTrade).any
        (fun t => t.instrument = defaultConfig.tradingSymbol) = true
    ∧ scanTick defaultConfig ⟨0, 0, 0, 0, 0, 0, 0, 0, 0, 10000, 10000⟩ 0 (some Side.long)
        (Except.ok [⟨"T9", "XAU_USD", 100, 2050, 0, some 2030⟩])
        ⟨2050, 2030, 2080, 2100⟩ (Except.ok [])
      = (ScanResult.abortedExistingPosition, []) :=
  ⟨by decide,
   (at_most_one_position defaultConfig ⟨0, 0, 0, 0, 0, 0, 0, 0, 0, 10000, 10000⟩ 0 Side.long
     [⟨"T9", "XAU_USD", 100, 2050, 0, some 2030⟩] ⟨2050, 2030, 2080, 2100⟩ (Except.ok [])
     (by decide)).1⟩

/-- Whether the closed-trade detail fetch succeeded and reported the
trade CLOSED. -/
def fetchClosedOk : Except Unit (Option ClosedInfo) → Bool
  | .ok (some _) => true
  | _ => false

/-- recordCount distributes over trace concatenation. -/
theorem recordCount_append (id : String) (a b : List MEvent) :
    recordCount id (a ++ b) = recordCount id a + recordCount id b := by
  simp [recordCount, List.filter_append]

/-- The closed-trade events for one id invoke recordTrade for a given id
exactly when the ids match and the fetch reported the trade closed. -/
theorem recordCount_process (T id : String) (f : Except Unit (Option ClosedInfo)) (tg : Bool) :
    recordCount T (processClosedTrade id f tg)
      = if id = T then (if fetchClosedOk f then 1 else 0) else 0 := by
  rcases f with u | o
  · simp [processClosedTrade, recordCount, fetchClosedOk]
  · rcases o with _ | info
    · simp [processClosedTrade, recordCount, fetchClosedOk]
    · rcases tg with _ | _ <;>
        by_cases hid : id = T <;>
        simp [processClosedTrade, recordCount, fetchClosedOk, hid]

/-- The ledger produced by the removal loop is a sub-collection of the
input ledger. -/
theorem reconcileLoop_subset (ids : List String) (L : List (String × Position))
    (f : String → Except Unit (Option ClosedInfo)) (tg : Bool) :
    ∀ kv ∈ (reconcileLoop ids L f tg).1, kv ∈ L := by
  induction ids generalizing L with
  | nil =>
    intro kv hkv
    simpa [reconcileLoop] using hkv
  | cons id rest ih =>
    intro kv hkv
    simp only [reconcileLoop] at hkv
    have := ih (L.filter (fun kv => kv.1 ≠ id)) kv hkv
    exact List.mem_of_mem_filter this

/-- After the removal loop has processed an id, no entry with that key
remains in the ledger. -/
theorem reconcileLoop_removes (ids : List String) (L : List (String × Position))
    (f : String → Except Unit (Option ClosedInfo)) (tg : Bool) (T : String) :
    T ∈ ids → ∀ kv ∈ (reconcileLoop ids L f tg).1, kv.1 ≠ T := by
  induction ids generalizing L with
  | nil =>
    intro hT
    cases hT
  | cons id rest ih =>
    intro hT kv hkv
    simp only [reconcileLoop] at hkv
    rcases List.mem_cons.mp hT with hTid | hTrest
    · subst hTid
      have := reconcileLoop_subset rest (L.filter (fun kv => kv.1 ≠ T)) f tg kv hkv
      have hmem := List.of_mem_filter this
      simpa using hmem
    · exact ih (L.filter (fun kv => kv.1 ≠ id)) hTrest kv hkv

/-- recordTrade invocations for a given id across the removal loop:
once per occurrence of the id in the processed list, and only when that
id's fetch reported the trade closed. -/
theorem recordCount_reconcileLoop (T : String) (ids : List String)
    (L : List (String × Position)) (f : String → Except Unit (Option ClosedInfo)) (tg : Bool) :
    recordCount T (reconcileLoop ids L f tg).2
      = ids.count T * (if fetchClosedOk (f T) then 1 else 0) := by
  induction ids generalizing L with
  | nil => simp [reconcileLoop, recordCount]
  | cons id rest ih =>
    simp only [reconcileLoop, recordCount_append, recordCount_process,
      ih (L.filter (fun kv => kv.1 ≠ id))]
    by_cases hid : id = T
    · subst hid
      simp only [List.count_cons, if_pos rfl, beq_self_eq_true, if_true]
      cases hok : fetchClosedOk (f id)
      · simp [hok]
      · simp only [hok, if_true]
        omega
    · have hne : ¬ T = id := fun h => hid h.symm
      rw [if_neg hid]
      simp [List.count_cons, hne]

/-- A ledger key that the broker no longer reports open is among the
stale ids computed by the reconciliation phase. -/
theorem mem_closedTradeIds (ledger : List (String × Position)) (openTrades : List OTrade)
    (T : String) (hmem : T ∈ ledger.map (fun kv => kv.1))
    (hopen : ∀ t ∈ openTrades, t.tradeId ≠ T) :
    T ∈ closedTradeIds ledger openTrades := by
  unfold closedTradeIds
  apply List.mem_filter.mpr
  refine ⟨hmem, ?_⟩
  simp only [List.any_eq_true, decide_eq_true_eq, not_exists, decide_not, Bool.not_eq_eq_eq_not,
    Bool.not_true, decide_eq_false_iff_not, not_and]
  intro t ht
  exact hopen t ht

/-- Claim C5: reconciliation removal and at-most-once accounting.  For a
tracked trade id absent from the broker's open-trade list: every entry
with that id is removed from the ledger whatever the detail fetch
returns; the removal and its persistence strictly precede the detail
fetch in that id's event sequence; a thrown fetch leaves the removal in
place and produces no recordTrade invocation; recordTrade is invoked
exactly once when the fetch reports the trade closed and never
otherwise; and a subsequent monitor tick can never invoke recordTrade
for that id again. -/
theorem reconciliation_removal (ledger : List (String × Position)) (openTrades : List OTrade)
    (f : String → Except Unit (Option ClosedInfo)) (tg : Bool) (T : String)
    (hmem : T ∈ ledger.map (fun kv => kv.1))
    (hnodup : (ledger.map (fun kv => kv.1)).Nodup)
    (hopen : ∀ t ∈ openTrades, t.tradeId ≠ T) :
    (∀ kv ∈ (monitorReconcile ledger openTrades f tg).1, kv.1 ≠ T)
    ∧ recordCount T (monitorReconcile ledger openTrades f tg).2
        = (if fetchClosedOk (f T) then 1 else 0)
    ∧ (f T = Except.error () → recordCount T (monitorReconcile ledger openTrades f tg).2 = 0)
    ∧ (∀ g : String → Except Unit (Option ClosedInfo),
        (processClosedTrade T (g T) tg).take 3
          = [MEvent.removeEntry T, MEvent.persist, MEvent.fetchClosed T])
    ∧ (∀ (openTrades2 : List OTrade) (g : String → Except Unit (Option ClosedInfo))
        (tg2 : Bool),
        recordCount T (monitorReconcile (monitorReconcile ledger openTrades f tg).1
          openTrades2 g tg2).2 = 0) := by
  have hTin : T ∈ closedTradeIds ledger openTrades :=
    mem_closedTradeIds ledger openTrades T hmem hopen
  have hnd : (closedTradeIds ledger openTrades).Nodup := hnodup.filter _
  have hcount : (closedTradeIds ledger openTrades).count T = 1 :=
    List.count_eq_one_of_mem hnd hTin
  have hrem : ∀ kv ∈ (monitorReconcile ledger openTrades f tg).1, kv.1 ≠ T :=
    reconcileLoop_removes (closedTradeIds ledger openTrades) ledger f tg T hTin
  refine ⟨hrem, ?_, ?_, ?_, ?_⟩
  · unfold monitorReconcile
    rw [recordCount_reconcileLoop, hcount, one_mul]
  · intro hferr
    unfold monitorReconcile
    rw [recordCount_reconcileLoop, hcount, one_mul]
    simp [fetchClosedOk, hferr]
  · intro g
    rcases g T with u | o
    · rfl
    · rcases o with _ | info
      · rfl
      · rcases tg with _ | _ <;> rfl
  · intro openTrades2 g tg2
    have hnotin : T ∉ closedTradeIds (monitorReconcile ledger openTrades f tg).1 openTrades2 := by
      intro hin
      have hk := (List.mem_filter.mp hin).1
      rcases List.mem_map.mp hk with ⟨kv, hkv, hkvT⟩
      exact hrem kv hkv hkvT
    unfold monitorReconcile at hnotin ⊢
    rw [recordCount_reconcileLoop, List.count_eq_zero.mpr hnotin, zero_mul]

/-- Claim C5 witness: a one-entry ledger whose trade is no longer open
at the broker, with a fetch that succeeds but does not report CLOSED. -/
theorem reconciliation_removal_witness :
    "T1" ∈ ([("T1", ⟨"T1", 2050, 159, 2030, 2080, 2100, false, 2050, 2030⟩)]
        : List (String × Position)).map (fun kv => kv.1)
    ∧ (([("T1", ⟨"T1", 2050, 159, 2030, 2080, 2100, false, 2050, 2030⟩)]
        : List (String × Position)).map (fun kv => kv.1)).Nodup
    ∧ (∀ kv ∈ (monitorReconcile
          [("T1", ⟨"T1", 2050, 159, 2030, 2080, 2100, false, 2050, 2030⟩)] []
          (fun _ => Except.ok none) false).1, kv.1 ≠ "T1")
    ∧ recordCount "T1" (monitorReconcile
          [("T1", ⟨"T1", 2050, 159, 2030, 2080, 2100, false, 2050, 2030⟩)] []
          (fun _ => Except.ok none) false).2 = 0 :=
  have h := reconciliation_removal
    [("T1", ⟨"T1", 2050, 159, 2030, 2080, 2100, false, 2050, 2030⟩)] []
    (fun _ => Except.ok none) false "T1" (by simp) (by simp) (by simp)
  ⟨by simp, by simp, h.1, by simpa [fetchClosedOk] using h.2.1⟩

end OandaGold
